import Mathlib

/-!
# Shallow embedding of the crab-8 CHIP-8 interpreter

This file embeds the core of the interpreter (`src/display.rs`,
`src/chip8.rs`) into Lean and proves properties of the embedding.

Conventions of the embedding:
* Machine bytes (`u8`) are natural numbers; every value produced by an
  8-bit operation is reduced `% 256`, and reads of the two instruction
  bytes from RAM are reduced `% 256` (the `u8` typing of the array).
* The 4096-byte RAM, the 16-entry call stack and the 16 general
  registers are total functions from `ℕ`; source array indexing at the
  claim-relevant call sites is always in range, except for the draw
  instruction's slice lookup which the source handles with
  `slice::get` + `expect` and which is modelled with `Option`.
* Wall-clock sampling (`SystemTime`): `step` takes the elapsed time in
  seconds (as measured by the source's `time.elapsed().as_secs_f64()`)
  as an explicit rational parameter, and the `start_time` field only
  records whether the epoch has been established.  The source's `f64`
  remainder is modelled by exact rational arithmetic.
* Debug printing (`disassemble`, `dump_to_stdout`) has no effect on
  machine state and is not modelled; the random byte drawn by the
  `Cxkk` instruction is an explicit parameter.
-/

/-! ## Display (`src/display.rs`) -/

/-- `PIXEL_COUNT`: the 64×32 monochrome display. -/
def PIXEL_COUNT : ℕ := 64 * 32

/-- The display surface: a row-major grid of boolean pixels,
index `y * 64 + x`. -/
structure Display where
  memory : ℕ → Bool

/-- `Display::new`: all pixels off. -/
def Display.new : Display := ⟨fun _ => false⟩

/-- `Display::to_index`. -/
def Display.to_index (x y : ℕ) : ℕ := y * 64 + x

/-- `Display::get`. -/
def Display.get (d : Display) (x y : ℕ) : Bool :=
  d.memory (Display.to_index x y)

/-- `Display::set`: XOR-composites `pixel` onto the cell at `(x, y)` and
returns the new display together with the boolean the source returns
(`false` in the `current ^ pixel` branch, `true` in the other branch). -/
def Display.set (d : Display) (x y : ℕ) (pixel : Bool) : Display × Bool :=
  let current := d.get x y
  if xor current pixel then
    (⟨fun k => if k = Display.to_index x y then true else d.memory k⟩, false)
  else
    (⟨fun k => if k = Display.to_index x y then false else d.memory k⟩, true)

/-- `Display::clear`. -/
def Display.clear (_d : Display) : Display := ⟨fun _ => false⟩

/-- `u8::rotate_left(1)`. -/
def rotl8 (b : ℕ) : ℕ := (b % 256 * 2 + b % 256 / 128) % 256

/-- Loop body of `Sprite::to_pixels`: `k` remaining iterations; a pixel
is on when `byte.leading_ones() > 0`, i.e. when the top bit is set. -/
def to_pixelsAux : ℕ → ℕ → List Bool
  | _, 0 => []
  | b, k + 1 => (decide (128 ≤ b % 256)) :: to_pixelsAux (rotl8 b) k

/-- `Sprite::to_pixels`: the 8 bits of a sprite byte, most significant
first. -/
def to_pixels (b : ℕ) : List Bool := to_pixelsAux b 8

/-- Inner loop of `Sprite::draw`: draw one row's pixels starting at
column `dx`, wrapping the column modulo 64; returns the display, the
final column cursor and the accumulated collision flag. -/
def Sprite.drawPixels (d : Display) (dx dy : ℕ) (pixels : List Bool)
    (collision : Bool) : Display × Bool :=
  match pixels with
  | [] => (d, collision)
  | p :: rest =>
      let (d2, collide) := d.set dx dy p
      Sprite.drawPixels d2 ((dx + 1) % 64) dy rest (collision || collide)

/-- Outer loop of `Sprite::draw`: each byte is one row; the column
cursor resets to `x % 64` per row and the row cursor advances modulo
32. -/
def Sprite.drawRows (d : Display) (x dy : ℕ) (bytes : List ℕ)
    (collision : Bool) : Display × Bool :=
  match bytes with
  | [] => (d, collision)
  | b :: rest =>
      let (d2, col2) := Sprite.drawPixels d (x % 64) dy (to_pixels b) collision
      Sprite.drawRows d2 x ((dy + 1) % 32) rest col2

/-- `Sprite::draw`: composite the sprite rows at `(x mod 64, y mod 32)`;
the returned boolean is the source's `Collision` value (`true` for
`Collision::True`). -/
def Sprite.draw (bytes : List ℕ) (x y : ℕ) (d : Display) : Display × Bool :=
  Sprite.drawRows d (x % 64) (y % 32) bytes false

/-! ## Register file (`src/chip8.rs`, `struct Registers`) -/

/-- The register file: 16 general 8-bit registers (`v 0` … `v 15`,
standing for the source fields `v_0` … `v_f`), the 16-bit address
register `i`, and the delay and sound timers. -/
structure Registers where
  v : ℕ → ℕ
  i : ℕ
  dt : ℕ
  st : ℕ

/-- `Registers::new`: everything zero. -/
def Registers.new : Registers := ⟨fun _ => 0, 0, 0, 0⟩

/-- `Registers::put` (total in the model; the source panics for a
register index above 15, which no call site produces). -/
def Registers.put (r : Registers) (register value : ℕ) : Registers :=
  { r with v := fun k => if k = register then value else r.v k }

/-- `Registers::get`. -/
def Registers.get (r : Registers) (register : ℕ) : ℕ := r.v register

/-! ## Machine state (`src/chip8.rs`, `struct Chip8`) -/

/-- `NORMAL_START_INDEX`: default program load offset. -/
def NORMAL_START_INDEX : ℕ := 512

/-- `ETI_660_START_INDEX`: the alternate (ETI-660) load offset as the
source defines it. -/
def ETI_660_START_INDEX : ℕ := 1526

/-- `CLOCK_CYCLE`: the 60 Hz timer period in seconds. -/
def CLOCK_CYCLE : ℚ := 1 / 60

/-- The machine state.  `start_time` records whether the wall-clock
epoch has been established (the source stores the `SystemTime` itself;
elapsed time is an explicit parameter of `step`).  The `debug_output`
flag only gates stdout printing and is not modelled. -/
structure Chip8 where
  ram : ℕ → ℕ
  registers : Registers
  pc : ℕ
  sp : ℕ
  stack : ℕ → ℕ
  display : Display
  start_time : Option Unit

/-- The 80 font bytes written by `load_hexadecimal_display_bytes`
(including the source's literal values for the "D" and "E" glyphs). -/
def fontBytes : List ℕ :=
  [0xF0, 0x90, 0x90, 0x90, 0xF0,
   0x20, 0x60, 0x20, 0x20, 0x70,
   0xF0, 0x10, 0xF0, 0x80, 0xF0,
   0xF0, 0x10, 0xF0, 0x10, 0xF0,
   0x90, 0x90, 0xF0, 0x10, 0x10,
   0xF0, 0x80, 0xF0, 0x10, 0xF0,
   0xF0, 0x80, 0xF0, 0x90, 0xF0,
   0xF0, 0x10, 0x20, 0x40, 0x40,
   0xF0, 0x90, 0xF0, 0x90, 0xF0,
   0xF0, 0x90, 0xF0, 0x10, 0xF0,
   0xF0, 0x90, 0xF0, 0x90, 0x90,
   0xE0, 0x90, 0xE0, 0x90, 0xE0,
   0xF0, 0x80, 0x80, 0x80, 0xF0,
   0xE9, 0x90, 0x90, 0x90, 0xE0,
   0xF0, 0x80, 0xF0, 0x80, 0xF9,
   0xF0, 0x80, 0xF0, 0x80, 0x80]

/-- Write a list of bytes into RAM at consecutive addresses starting at
`start_index` (the enumerate-loop of `load_rom` and of
`load_hexadecimal_display_bytes`). -/
def writeBytes (ram : ℕ → ℕ) (start_index : ℕ) : List ℕ → (ℕ → ℕ)
  | [] => ram
  | b :: rest =>
      writeBytes (fun k => if k = start_index then b else ram k) (start_index + 1) rest

/-- `Chip8::new`: zeroed state with the font preloaded at address 0. -/
def Chip8.new : Chip8 :=
  { ram := writeBytes (fun _ => 0) 0 fontBytes
    registers := Registers.new
    pc := 0
    sp := 0
    stack := fun _ => 0
    display := Display.new
    start_time := none }

/-- `Chip8::load_rom` (the file read is replaced by the byte list):
writes the program bytes at the selected load offset and points the
program counter there. -/
def Chip8.load_rom (s : Chip8) (bytes : List ℕ) (eti_mode : Bool) : Chip8 :=
  let start_index := if eti_mode then ETI_660_START_INDEX else NORMAL_START_INDEX
  { s with ram := writeBytes s.ram start_index bytes, pc := start_index }

/-! ## Instruction decoding helpers -/

/-- `high`: upper nibble of a byte (`(byte & 0xF0) >> 4`). -/
def high (byte : ℕ) : ℕ := byte % 256 / 16

/-- `low`: lower nibble of a byte (`byte & 0x0F`). -/
def low (byte : ℕ) : ℕ := byte % 16

/-- `Chip8::high_byte`: the RAM byte at `pc` (reduced to its `u8`
value). -/
def Chip8.high_byte (s : Chip8) : ℕ := s.ram s.pc % 256

/-- `Chip8::low_byte`: the RAM byte at `pc + 1`. -/
def Chip8.low_byte (s : Chip8) : ℕ := s.ram (s.pc + 1) % 256

/-- `Chip8::instruction`: the 16-bit instruction word. -/
def Chip8.instruction (s : Chip8) : ℕ := s.high_byte * 256 + s.low_byte

/-- `Chip8::addr`: the low 12 bits of the instruction word. -/
def Chip8.addr (s : Chip8) : ℕ := s.instruction % 4096

/-! ## 8-bit and 16-bit arithmetic primitives -/

/-- `u8::overflowing_add`: wrapped sum and carry flag. -/
def overflowingAdd8 (a b : ℕ) : ℕ × Bool :=
  ((a + b) % 256, decide (256 ≤ a + b))

/-- `u8::overflowing_sub`: wrapped difference and borrow flag (exact
for `u8` inputs, i.e. both arguments below 256). -/
def overflowingSub8 (a b : ℕ) : ℕ × Bool :=
  ((a + 256 - b % 256) % 256, decide (a < b))

/-- `u8::overflowing_shr(1)`: since the shift amount 1 is below the bit
width 8, the overflow flag is always `false`. -/
def overflowingShr1 (a : ℕ) : ℕ × Bool := (a % 256 / 2, false)

/-- `u8::overflowing_shl(1)`: the low 8 bits of the doubled value; the
overflow flag is always `false`. -/
def overflowingShl1 (a : ℕ) : ℕ × Bool := (a % 256 * 2 % 256, false)

/-! ## Instruction semantics (`impl Chip8`)

Each instruction function mirrors one source method: it returns the
mutated state together with the `usize` next-program-counter value the
source method returns; `step` assigns that value to `pc`. -/

/-- The keyboard as the engine sees it: `pressed` is
`KeyMap::is_key_pressed`; `most_recent` models the `most_recent_key`
query consumed by `Fx0A`.  Modelled from the spec: `most_recent_key`
("most recently pressed key, if any") is called by `chip8.rs` but the
method is absent from `src/keymap.rs`. -/
structure KeyMap where
  pressed : ℕ → Bool
  most_recent : Option ℕ

/-- `00E0 - CLS`. -/
def Chip8.clear (s : Chip8) : Chip8 × ℕ :=
  ({ s with display := s.display.clear }, s.pc + 2)

/-- `00EE - RET`: decrement `sp`, then resume two past the saved
address. -/
def Chip8.ret (s : Chip8) : Chip8 × ℕ :=
  let s2 := { s with sp := s.sp - 1 }
  (s2, s2.stack s2.sp + 2)

/-- `1nnn - JP addr`. -/
def Chip8.jump (s : Chip8) : Chip8 × ℕ := (s, s.addr)

/-- `2nnn - CALL addr`: save `pc` at `stack[sp]`, increment `sp`, jump
to the address. -/
def Chip8.call (s : Chip8) : Chip8 × ℕ :=
  ({ s with stack := fun k => if k = s.sp then s.pc else s.stack k,
            sp := s.sp + 1 },
   s.addr)

/-- `3xkk - SE Vx, byte`. -/
def Chip8.skip_eq (s : Chip8) : Chip8 × ℕ :=
  let x := low s.high_byte
  let contents := s.registers.get x
  (s, if contents = s.low_byte then s.pc + 4 else s.pc + 2)

/-- `4xkk - SNE Vx, byte`. -/
def Chip8.skip_neq (s : Chip8) : Chip8 × ℕ :=
  let x := low s.high_byte
  let contents := s.registers.get x
  (s, if contents ≠ s.low_byte then s.pc + 4 else s.pc + 2)

/-- `5xy0 - SE Vx, Vy`. -/
def Chip8.skip_eq_reg (s : Chip8) : Chip8 × ℕ :=
  let x := low s.high_byte
  let y := high s.low_byte
  (s, if s.registers.get x = s.registers.get y then s.pc + 4 else s.pc + 2)

/-- `6xkk - LD Vx, byte`. -/
def Chip8.load_vx (s : Chip8) : Chip8 × ℕ :=
  let x := low s.high_byte
  ({ s with registers := s.registers.put x s.low_byte }, s.pc + 2)

/-- `7xkk - ADD Vx, byte` (wrapping, no flag effect). -/
def Chip8.add_vx (s : Chip8) : Chip8 × ℕ :=
  let x := low s.high_byte
  let result := (overflowingAdd8 (s.registers.get x) s.low_byte).1
  ({ s with registers := s.registers.put x result }, s.pc + 2)

/-- `8xy0 - LD Vx, Vy`. -/
def Chip8.set_vx_to_vy (s : Chip8) : Chip8 × ℕ :=
  let x := low s.high_byte
  let y := high s.low_byte
  ({ s with registers := s.registers.put x (s.registers.get y) }, s.pc + 2)

/-- `8xy1 - OR Vx, Vy`. -/
def Chip8.vx_or_vy (s : Chip8) : Chip8 × ℕ :=
  let x := low s.high_byte
  let y := high s.low_byte
  ({ s with registers :=
      s.registers.put x (Nat.lor (s.registers.get y) (s.registers.get x)) },
   s.pc + 2)

/-- `8xy2 - AND Vx, Vy`. -/
def Chip8.vx_and_vy (s : Chip8) : Chip8 × ℕ :=
  let x := low s.high_byte
  let y := high s.low_byte
  ({ s with registers :=
      s.registers.put x (Nat.land (s.registers.get y) (s.registers.get x)) },
   s.pc + 2)

/-- `8xy3 - XOR Vx, Vy`. -/
def Chip8.vx_xor_vy (s : Chip8) : Chip8 × ℕ :=
  let x := low s.high_byte
  let y := high s.low_byte
  ({ s with registers :=
      s.registers.put x (Nat.xor (s.registers.get y) (s.registers.get x)) },
   s.pc + 2)

/-- `8xy4 - ADD Vx, Vy`: sets the flag register from the carry, then
stores the wrapped sum in `Vx` (in that order). -/
def Chip8.add_vx_and_vy (s : Chip8) : Chip8 × ℕ :=
  let x := low s.high_byte
  let y := high s.low_byte
  let rc := overflowingAdd8 (s.registers.get x) (s.registers.get y)
  let r1 := if rc.2 then s.registers.put 15 1 else s.registers.put 15 0
  ({ s with registers := r1.put x rc.1 }, s.pc + 2)

/-- `8xy5 - SUB Vx, Vy`: flag from `vx > vy`, then the wrapped
difference is stored in `Vx`. -/
def Chip8.sub_vx_and_vy (s : Chip8) : Chip8 × ℕ :=
  let x := low s.high_byte
  let y := high s.low_byte
  let vx := s.registers.get x
  let vy := s.registers.get y
  let r1 := if vy < vx then s.registers.put 15 1 else s.registers.put 15 0
  ({ s with registers := r1.put x (overflowingSub8 vx vy).1 }, s.pc + 2)

/-- `8xy6 - SHR Vx`: stores the shifted value, then sets the flag from
the `overflowing_shr` carry (in that order). -/
def Chip8.vx_shr (s : Chip8) : Chip8 × ℕ :=
  let x := low s.high_byte
  let rc := overflowingShr1 (s.registers.get x)
  let r1 := s.registers.put x rc.1
  ({ s with registers := if rc.2 then r1.put 15 1 else r1.put 15 0 }, s.pc + 2)

/-- `8xy7 - SUBN Vx, Vy`: the source reads operand `y` from the LOW
nibble of the low byte; flag from `vy > vx`, then `vy - vx` wrapped is
stored in `Vx`. -/
def Chip8.vx_subn_vy (s : Chip8) : Chip8 × ℕ :=
  let x := low s.high_byte
  let y := low s.low_byte
  let vx := s.registers.get x
  let vy := s.registers.get y
  let r1 := if vx < vy then s.registers.put 15 1 else s.registers.put 15 0
  ({ s with registers := r1.put x (overflowingSub8 vy vx).1 }, s.pc + 2)

/-- `8xyE - SHL Vx`: stores the shifted value, then sets the flag from
the `overflowing_shl` carry (in that order). -/
def Chip8.vx_shl (s : Chip8) : Chip8 × ℕ :=
  let x := low s.high_byte
  let rc := overflowingShl1 (s.registers.get x)
  let r1 := s.registers.put x rc.1
  ({ s with registers := if rc.2 then r1.put 15 1 else r1.put 15 0 }, s.pc + 2)

/-- `9xy0 - SNE Vx, Vy`. -/
def Chip8.skip_vx_neq_vy (s : Chip8) : Chip8 × ℕ :=
  let x := low s.high_byte
  let y := high s.low_byte
  (s, if s.registers.get x ≠ s.registers.get y then s.pc + 4 else s.pc + 2)

/-- `Annn - LD I, addr`. -/
def Chip8.load_i (s : Chip8) : Chip8 × ℕ :=
  ({ s with registers := { s.registers with i := s.addr } }, s.pc + 2)

/-- `Bnnn - JP V0, addr`. -/
def Chip8.jump_plus_v0 (s : Chip8) : Chip8 × ℕ :=
  (s, s.addr + s.registers.v 0)

/-- `Cxkk - RND Vx, byte`: the generated random byte is an explicit
parameter, ANDed with the immediate. -/
def Chip8.rand (s : Chip8) (random_number : ℕ) : Chip8 × ℕ :=
  let x := low s.high_byte
  let masked := Nat.land (random_number % 256) s.low_byte
  ({ s with registers := s.registers.put x masked }, s.pc + 2)

/-- The semantics of `<[u8; 4096]>::get(start..stop)`: `some` of the
bytes exactly when `start ≤ stop ≤ 4096`. -/
def ramSlice (ram : ℕ → ℕ) (start stop : ℕ) : Option (List ℕ) :=
  if start ≤ stop ∧ stop ≤ 4096 then
    some ((List.range (stop - start)).map fun k => ram (start + k) % 256)
  else none

/-- `Dxyn - DRW Vx, Vy, nibble`: `none` models the panic of the
source's `.expect("Bytes to draw out of range")`; the end index of the
slice wraps like the source's `u16` addition.  (The `Sprite::new`
length assertion holds since `n < 16`.) -/
def Chip8.draw (s : Chip8) : Option (Chip8 × ℕ) :=
  let x := low s.high_byte
  let y := high s.low_byte
  let n := low s.low_byte
  let address := s.registers.i
  match ramSlice s.ram address ((address + n) % 65536) with
  | none => none
  | some bytes =>
      let vx := s.registers.get x
      let vy := s.registers.get y
      let dc := Sprite.draw bytes vx vy s.display
      let r1 := if dc.2 then s.registers.put 15 1 else s.registers.put 15 0
      some ({ s with display := dc.1, registers := r1 }, s.pc + 2)

/-- `Ex9E - SKP Vx` (the returned next-pc value; the dispatcher in
`step` discards it). -/
def Chip8.skip_pressed (s : Chip8) (keymap : KeyMap) : Chip8 × ℕ :=
  let x := low s.high_byte
  let vx := s.registers.get x
  (s, if keymap.pressed vx then s.pc + 4 else s.pc + 2)

/-- `ExA1 - SKNP Vx` (the returned next-pc value; the dispatcher in
`step` discards it). -/
def Chip8.skip_not_pressed (s : Chip8) (keymap : KeyMap) : Chip8 × ℕ :=
  let x := low s.high_byte
  let vx := s.registers.get x
  (s, if ¬ keymap.pressed vx then s.pc + 4 else s.pc + 2)

/-- `Fx07 - LD Vx, DT`. -/
def Chip8.set_vx_delay_timer (s : Chip8) : Chip8 × ℕ :=
  let x := low s.high_byte
  ({ s with registers := s.registers.put x s.registers.dt }, s.pc + 2)

/-- `Fx0A - LD Vx, K`: stores the most recent key and advances, or
holds `pc` in place when no key is available. -/
def Chip8.wait_and_load_key_press (s : Chip8) (keymap : KeyMap) : Chip8 × ℕ :=
  let x := low s.high_byte
  match keymap.most_recent with
  | some key => ({ s with registers := s.registers.put x (key % 256) }, s.pc + 2)
  | none => (s, s.pc)

/-- `Fx15 - LD DT, Vx`. -/
def Chip8.set_delay_timer (s : Chip8) : Chip8 × ℕ :=
  let x := low s.high_byte
  ({ s with registers := { s.registers with dt := s.registers.get x } }, s.pc + 2)

/-- `Fx18 - LD ST, Vx`. -/
def Chip8.set_sound_timer (s : Chip8) : Chip8 × ℕ :=
  let x := low s.high_byte
  ({ s with registers := { s.registers with st := s.registers.get x } }, s.pc + 2)

/-- `Fx1E - ADD I, Vx` (`u16` wrapping add). -/
def Chip8.add (s : Chip8) : Chip8 × ℕ :=
  let x := low s.high_byte
  let result := (s.registers.i + s.registers.get x) % 65536
  ({ s with registers := { s.registers with i := result } }, s.pc + 2)

/-- `Fx29 - LD F, Vx`: font sprite address, a no-op when `Vx > 0xF`. -/
def Chip8.set_i_to_sprite_vx (s : Chip8) : Chip8 × ℕ :=
  let x := low s.high_byte
  let vx := s.registers.get x
  (if vx ≤ 0xF then { s with registers := { s.registers with i := vx * 5 } }
   else s,
   s.pc + 2)

/-- `Fx33 - LD B, Vx`: BCD digits of `Vx` at `i`, `i+1`, `i+2`. -/
def Chip8.store_bcd (s : Chip8) : Chip8 × ℕ :=
  let x := low s.high_byte
  let vx := s.registers.get x
  let i := s.registers.i
  let ram1 := fun k => if k = i then vx / 100 else s.ram k
  let ram2 := fun k => if k = i + 1 then vx / 10 % 10 else ram1 k
  let ram3 := fun k => if k = i + 2 then vx % 10 else ram2 k
  ({ s with ram := ram3 }, s.pc + 2)

/-- Loop of `Fx55`: write registers `0..=x` to RAM from address `i`. -/
def storeRegs (ram : ℕ → ℕ) (r : Registers) (i : ℕ) : ℕ → (ℕ → ℕ)
  | 0 => fun k => if k = i then r.get 0 else ram k
  | n + 1 => fun k =>
      if k = i + (n + 1) then r.get (n + 1) else storeRegs ram r i n k

/-- `Fx55 - LD [I], Vx`. -/
def Chip8.store_array (s : Chip8) : Chip8 × ℕ :=
  let x := low s.high_byte
  let i := s.registers.i
  ({ s with ram := storeRegs s.ram s.registers i x }, s.pc + 2)

/-- Loop of `Fx65`: load registers `0..=x` from RAM at address `i`. -/
def loadRegs (ram : ℕ → ℕ) (r : Registers) (i : ℕ) : ℕ → Registers
  | 0 => r.put 0 (ram i % 256)
  | n + 1 => (loadRegs ram r i n).put (n + 1) (ram (i + (n + 1)) % 256)

/-- `Fx65 - LD Vx, [I]`. -/
def Chip8.load_array (s : Chip8) : Chip8 × ℕ :=
  let x := low s.high_byte
  let i := s.registers.i
  ({ s with registers := loadRegs s.ram s.registers i x }, s.pc + 2)

/-! ## Timers and the step dispatcher -/

/-- The `f64` remainder `a % b` for the non-negative operands the timer
code produces, in exact rational arithmetic. -/
def frem (a b : ℚ) : ℚ := a - b * (⌊a / b⌋ : ℚ)

/-- Second half of the decrement body of `Chip8::run_timers`:
decrement a non-zero sound timer. -/
def tickSt (r : Registers) : Registers :=
  if 0 < r.st then { r with st := r.st - 1 } else r

/-- The decrement body of `Chip8::run_timers`: each non-zero timer is
decremented by one. -/
def tickTimers (r : Registers) : Registers :=
  tickSt (if 0 < r.dt then { r with dt := r.dt - 1 } else r)

/-- `Chip8::run_timers`: when an epoch exists and the elapsed seconds
satisfy `elapsed % CLOCK_CYCLE ≤ 0.01`, decrement each non-zero timer
by one. -/
def Chip8.run_timers (s : Chip8) (elapsed : ℚ) : Chip8 :=
  match s.start_time with
  | some _ =>
      if ¬ (frem elapsed CLOCK_CYCLE ≤ 1 / 100) then s
      else { s with registers := tickTimers s.registers }
  | none => s

/-- `Chip8::sound_on`. -/
def Chip8.sound_on (s : Chip8) : Bool := decide (0 < s.registers.st)

/-- Epoch establishment at the top of `Chip8::step`: the first call
records the start time. -/
def Chip8.epoch (s : Chip8) : Chip8 :=
  if s.start_time = none then { s with start_time := some () } else s

/-- The outcome of one `step`: success, the
`Error::UnrecognisedInstruction` decode failure carrying the two raw
opcode bytes, or a panic (the draw instruction's `expect`). -/
inductive StepResult where
  | ok : Chip8 → StepResult
  | err : Chip8 → ℕ → ℕ → StepResult
  | panic : StepResult

/-- The dispatch section of `Chip8::step`, operating on the state after
epoch establishment and `run_timers`.  Every arm mirrors the source
match: it assigns the instruction function's returned value to `pc` —
except the `0xE` arms, where the source discards the returned value, so
`pc` is left untouched. -/
def Chip8.exec (s : Chip8) (keymap : KeyMap) (random_number : ℕ) : StepResult :=
  let hb := s.high_byte
  let lb := s.low_byte
  if high hb = 0x0 then
    if lb = 0xE0 then
      let tp := s.clear
      .ok { tp.1 with pc := tp.2 }
    else if lb = 0xEE then
      let tp := s.ret
      .ok { tp.1 with pc := tp.2 }
    else
      -- 0nnn SYS opcodes are ignored
      .ok { s with pc := s.pc + 2 }
  else if high hb = 0x1 then
    let tp := s.jump
    .ok { tp.1 with pc := tp.2 }
  else if high hb = 0x2 then
    let tp := s.call
    .ok { tp.1 with pc := tp.2 }
  else if high hb = 0x3 then
    let tp := s.skip_eq
    .ok { tp.1 with pc := tp.2 }
  else if high hb = 0x4 then
    let tp := s.skip_neq
    .ok { tp.1 with pc := tp.2 }
  else if high hb = 0x5 then
    let tp := s.skip_eq_reg
    .ok { tp.1 with pc := tp.2 }
  else if high hb = 0x6 then
    let tp := s.load_vx
    .ok { tp.1 with pc := tp.2 }
  else if high hb = 0x7 then
    let tp := s.add_vx
    .ok { tp.1 with pc := tp.2 }
  else if high hb = 0x8 then
    if low lb = 0 then
      let tp := s.set_vx_to_vy
      .ok { tp.1 with pc := tp.2 }
    else if low lb = 1 then
      let tp := s.vx_or_vy
      .ok { tp.1 with pc := tp.2 }
    else if low lb = 2 then
      let tp := s.vx_and_vy
      .ok { tp.1 with pc := tp.2 }
    else if low lb = 3 then
      let tp := s.vx_xor_vy
      .ok { tp.1 with pc := tp.2 }
    else if low lb = 4 then
      let tp := s.add_vx_and_vy
      .ok { tp.1 with pc := tp.2 }
    else if low lb = 5 then
      let tp := s.sub_vx_and_vy
      .ok { tp.1 with pc := tp.2 }
    else if low lb = 6 then
      let tp := s.vx_shr
      .ok { tp.1 with pc := tp.2 }
    else if low lb = 7 then
      let tp := s.vx_subn_vy
      .ok { tp.1 with pc := tp.2 }
    else if low lb = 0xE then
      let tp := s.vx_shl
      .ok { tp.1 with pc := tp.2 }
    else
      .err s hb lb
  else if high hb = 0x9 then
    let tp := s.skip_vx_neq_vy
    .ok { tp.1 with pc := tp.2 }
  else if high hb = 0xA then
    let tp := s.load_i
    .ok { tp.1 with pc := tp.2 }
  else if high hb = 0xB then
    let tp := s.jump_plus_v0
    .ok { tp.1 with pc := tp.2 }
  else if high hb = 0xC then
    let tp := s.rand random_number
    .ok { tp.1 with pc := tp.2 }
  else if high hb = 0xD then
    match s.draw with
    | none => .panic
    | some tp => .ok { tp.1 with pc := tp.2 }
  else if high hb = 0xE then
    if lb = 0x9E then
      -- the returned program counter is discarded by the source
      .ok (s.skip_pressed keymap).1
    else if lb = 0xA1 then
      -- the returned program counter is discarded by the source
      .ok (s.skip_not_pressed keymap).1
    else
      .err s hb lb
  else if high hb = 0xF then
    if lb = 0x07 then
      let tp := s.set_vx_delay_timer
      .ok { tp.1 with pc := tp.2 }
    else if lb = 0x0A then
      let tp := s.wait_and_load_key_press keymap
      .ok { tp.1 with pc := tp.2 }
    else if lb = 0x15 then
      let tp := s.set_delay_timer
      .ok { tp.1 with pc := tp.2 }
    else if lb = 0x18 then
      let tp := s.set_sound_timer
      .ok { tp.1 with pc := tp.2 }
    else if lb = 0x1E then
      let tp := s.add
      .ok { tp.1 with pc := tp.2 }
    else if lb = 0x29 then
      let tp := s.set_i_to_sprite_vx
      .ok { tp.1 with pc := tp.2 }
    else if lb = 0x33 then
      let tp := s.store_bcd
      .ok { tp.1 with pc := tp.2 }
    else if lb = 0x55 then
      let tp := s.store_array
      .ok { tp.1 with pc := tp.2 }
    else if lb = 0x65 then
      let tp := s.load_array
      .ok { tp.1 with pc := tp.2 }
    else
      .err s hb lb
  else
    .err s hb lb

/-- `Chip8::step`: establish the epoch on first use, run the timers on
the sampled elapsed time, then fetch, decode and execute one
instruction. -/
def Chip8.step (s : Chip8) (keymap : KeyMap) (elapsed : ℚ)
    (random_number : ℕ) : StepResult :=
  ((s.epoch).run_timers elapsed).exec keymap random_number

/-! ## Observers used to state concrete evaluations -/

/-- Program counter of a successful step. -/
def stepOkPc : StepResult → Option ℕ
  | .ok s => some s.pc
  | _ => none

/-- Delay timer of a successful step. -/
def stepOkDt : StepResult → Option ℕ
  | .ok s => some s.registers.dt
  | _ => none

/-- A register value of a successful step. -/
def stepOkReg (n : ℕ) : StepResult → Option ℕ
  | .ok s => some (s.registers.get n)
  | _ => none

/-- The raw bytes carried by a decode failure. -/
def stepErrBytes : StepResult → Option (ℕ × ℕ)
  | .err _ hb lb => some (hb, lb)
  | _ => none

/-- Delay timer of the state at a decode failure. -/
def stepErrDt : StepResult → Option ℕ
  | .err s _ _ => some s.registers.dt
  | _ => none

/-- The instruction words on which the dispatcher of `Chip8::step` hits
a `return Err(Error::UnrecognisedInstruction(..))` arm: the undefined
secondary codes of the `0x8`, `0xE` and `0xF` families.  (Every primary
nibble 0–15 has an arm, so the trailing wildcard of the source match is
unreachable.) -/
def unrecognised (hb lb : ℕ) : Prop :=
  (high hb = 0x8 ∧ low lb ≠ 0 ∧ low lb ≠ 1 ∧ low lb ≠ 2 ∧ low lb ≠ 3 ∧
    low lb ≠ 4 ∧ low lb ≠ 5 ∧ low lb ≠ 6 ∧ low lb ≠ 7 ∧ low lb ≠ 0xE) ∨
  (high hb = 0xE ∧ lb ≠ 0x9E ∧ lb ≠ 0xA1) ∨
  (high hb = 0xF ∧ lb ≠ 0x07 ∧ lb ≠ 0x0A ∧ lb ≠ 0x15 ∧ lb ≠ 0x18 ∧
    lb ≠ 0x1E ∧ lb ≠ 0x29 ∧ lb ≠ 0x33 ∧ lb ≠ 0x55 ∧ lb ≠ 0x65)

/-! ## Concrete machine states used in the claim evaluations -/

/-- A keyboard with no key held and no recent key. -/
def km0 : KeyMap := ⟨fun _ => false, none⟩

/-- A keyboard with every key held. -/
def kmAll : KeyMap := ⟨fun _ => true, none⟩

/-- Freshly initialised machine with `D001` (draw the 1-byte sprite at
`I` at coordinates `(V0, V0) = (0, 0)`) loaded, and `I = 100`, where
RAM holds the byte `0x00`: a draw whose target pixels are all off and
whose sprite bits are all zero. -/
def stateC1 : Chip8 :=
  let b := Chip8.new.load_rom [0xD0, 0x01] false
  { b with registers := { b.registers with i := 100 } }

/-- Machine with `E09E` (`SKP V0`) loaded at 512 and the epoch already
established. -/
def stateC2 : Chip8 :=
  { Chip8.new.load_rom [0xE0, 0x9E] false with start_time := some () }

/-- Machine with `E0A1` (`SKNP V0`) loaded at 512 and the epoch already
established. -/
def stateC2a : Chip8 :=
  { Chip8.new.load_rom [0xE0, 0xA1] false with start_time := some () }

/-- Machine with `8106` (`SHR V1`) loaded and `V1 = 1` (low bit set). -/
def stateC3 : Chip8 :=
  let b := Chip8.new.load_rom [0x81, 0x06] false
  { b with registers := b.registers.put 1 1 }

/-- Machine with `810E` (`SHL V1`) loaded and `V1 = 0x80` (high bit
set). -/
def stateC3b : Chip8 :=
  let b := Chip8.new.load_rom [0x81, 0x0E] false
  { b with registers := b.registers.put 1 0x80 }

/-- Machine with `8127` (`SUBN V1, V2`) loaded and `V1 = 3`, `V2 = 5`,
`V7 = 0`. -/
def stateC4 : Chip8 :=
  let b := Chip8.new.load_rom [0x81, 0x27] false
  { b with registers := ((b.registers.put 1 3).put 2 5).put 7 0 }

/-- Machine with `8F04` (`ADD VF, V0`) loaded and `VF = 200`,
`V0 = 100`: the add's destination register is the flag register and its
carry flag output is 1. -/
def stateC5 : Chip8 :=
  let b := Chip8.new.load_rom [0x8F, 0x04] false
  { b with registers := (b.registers.put 15 200).put 0 100 }

/-- Machine with `8104` (`ADD V1, V0`) loaded, `V1 = 200`, `V0 = 100`
and `I = 100`: a state exercising every flag-producing instruction with
a destination distinct from the flag register. -/
def stateC5w : Chip8 :=
  let b := Chip8.new.load_rom [0x81, 0x04] false
  { b with registers :=
      { (b.registers.put 1 200).put 0 100 with i := 100 } }

/-- Machine before its very first `step` (`start_time` not yet
established), delay timer 5, a `0000` (ignored SYS) word at the program
counter. -/
def stateC6 : Chip8 :=
  let b := Chip8.new.load_rom [0x00, 0x00] false
  { b with registers := { b.registers with dt := 5 } }

/-- The machine state after the first step of `stateC6` (the `0000` SYS
word is ignored, advancing `pc` to 514; the delay timer has already
been decremented to 4). -/
def stateC6c : Chip8 :=
  let b := Chip8.new.load_rom [0x00, 0x00] false
  { b with registers := { b.registers with dt := 4 },
           pc := 514, start_time := some () }

/-- Machine with the undefined word `FFFF` at the program counter, the
epoch established and delay timer 1. -/
def stateC8 : Chip8 :=
  let b := Chip8.new.load_rom [0xFF, 0xFF] false
  { b with registers := { b.registers with dt := 1 }, start_time := some () }

/-- Machine with `2600` (`CALL 0x600`) at the program counter and a
`00EE` (`RET`) word at address `0x600`. -/
def stateC9 : Chip8 :=
  let b := Chip8.new.load_rom [0x26, 0x00] false
  { b with ram := fun k =>
      if k = 0x600 then 0x00 else if k = 0x601 then 0xEE else b.ram k }

/-- Machine with `D005` (draw a 5-row sprite) loaded and `I = 4095`, so
`I + n = 4100 > 4096`. -/
def stateC10 : Chip8 :=
  let b := Chip8.new.load_rom [0xD0, 0x05] false
  { b with registers := { b.registers with i := 4095 } }

/-- Machine with `D005` loaded and `I = 4091`, so `I + n = 4096`. -/
def stateC10b : Chip8 :=
  let b := Chip8.new.load_rom [0xD0, 0x05] false
  { b with registers := { b.registers with i := 4091 } }

/-! ## Preservation lemmas for the pre-dispatch stages of `step` -/

theorem epoch_ram (s : Chip8) : s.epoch.ram = s.ram := by
  unfold Chip8.epoch; split <;> rfl

theorem epoch_pc (s : Chip8) : s.epoch.pc = s.pc := by
  unfold Chip8.epoch; split <;> rfl

theorem epoch_sp (s : Chip8) : s.epoch.sp = s.sp := by
  unfold Chip8.epoch; split <;> rfl

theorem epoch_stack (s : Chip8) : s.epoch.stack = s.stack := by
  unfold Chip8.epoch; split <;> rfl

theorem epoch_display (s : Chip8) : s.epoch.display = s.display := by
  unfold Chip8.epoch; split <;> rfl

theorem epoch_registers (s : Chip8) : s.epoch.registers = s.registers := by
  unfold Chip8.epoch; split <;> rfl

theorem tickTimers_v (r : Registers) : (tickTimers r).v = r.v := by
  unfold tickTimers tickSt
  split <;> split <;> rfl

theorem tickTimers_i (r : Registers) : (tickTimers r).i = r.i := by
  unfold tickTimers tickSt
  split <;> split <;> rfl

theorem run_timers_ram (s : Chip8) (e : ℚ) : (s.run_timers e).ram = s.ram := by
  unfold Chip8.run_timers
  split
  · split <;> rfl
  · rfl

theorem run_timers_pc (s : Chip8) (e : ℚ) : (s.run_timers e).pc = s.pc := by
  unfold Chip8.run_timers
  split
  · split <;> rfl
  · rfl

theorem run_timers_sp (s : Chip8) (e : ℚ) : (s.run_timers e).sp = s.sp := by
  unfold Chip8.run_timers
  split
  · split <;> rfl
  · rfl

theorem run_timers_stack (s : Chip8) (e : ℚ) :
    (s.run_timers e).stack = s.stack := by
  unfold Chip8.run_timers
  split
  · split <;> rfl
  · rfl

theorem run_timers_display (s : Chip8) (e : ℚ) :
    (s.run_timers e).display = s.display := by
  unfold Chip8.run_timers
  split
  · split <;> rfl
  · rfl

theorem run_timers_registers_v (s : Chip8) (e : ℚ) :
    (s.run_timers e).registers.v = s.registers.v := by
  unfold Chip8.run_timers
  split
  · split
    · rfl
    · exact tickTimers_v s.registers
  · rfl

theorem run_timers_registers_i (s : Chip8) (e : ℚ) :
    (s.run_timers e).registers.i = s.registers.i := by
  unfold Chip8.run_timers
  split
  · split
    · rfl
    · exact tickTimers_i s.registers
  · rfl

/-- The fetch of the two instruction bytes is unaffected by epoch
establishment and the timer stage. -/
theorem pre_high_byte (s : Chip8) (e : ℚ) :
    ((s.epoch).run_timers e).high_byte = s.high_byte := by
  unfold Chip8.high_byte
  rw [run_timers_ram, run_timers_pc, epoch_ram, epoch_pc]

theorem pre_low_byte (s : Chip8) (e : ℚ) :
    ((s.epoch).run_timers e).low_byte = s.low_byte := by
  unfold Chip8.low_byte
  rw [run_timers_ram, run_timers_pc, epoch_ram, epoch_pc]

theorem pre_addr (s : Chip8) (e : ℚ) :
    ((s.epoch).run_timers e).addr = s.addr := by
  unfold Chip8.addr Chip8.instruction
  rw [pre_high_byte, pre_low_byte]

theorem pre_ram (s : Chip8) (e : ℚ) :
    ((s.epoch).run_timers e).ram = s.ram := by
  rw [run_timers_ram, epoch_ram]

theorem pre_pc (s : Chip8) (e : ℚ) :
    ((s.epoch).run_timers e).pc = s.pc := by
  rw [run_timers_pc, epoch_pc]

theorem pre_sp (s : Chip8) (e : ℚ) :
    ((s.epoch).run_timers e).sp = s.sp := by
  rw [run_timers_sp, epoch_sp]

theorem pre_stack (s : Chip8) (e : ℚ) :
    ((s.epoch).run_timers e).stack = s.stack := by
  rw [run_timers_stack, epoch_stack]

theorem pre_registers_i (s : Chip8) (e : ℚ) :
    ((s.epoch).run_timers e).registers.i = s.registers.i := by
  rw [run_timers_registers_i, epoch_registers]

/-! ## Dispatch lemmas for single opcode families -/

/-- On a primary nibble 2 the dispatcher executes `call`. -/
theorem exec_call (s : Chip8) (k : KeyMap) (r : ℕ)
    (h : high s.high_byte = 0x2) :
    Chip8.exec s k r = .ok { (s.call).1 with pc := (s.call).2 } := by
  unfold Chip8.exec
  dsimp only
  rw [h]
  norm_num

/-- On a primary nibble 0 with low byte `0xEE` the dispatcher executes
`ret`. -/
theorem exec_ret (s : Chip8) (k : KeyMap) (r : ℕ)
    (h0 : high s.high_byte = 0x0) (hEE : s.low_byte = 0xEE) :
    Chip8.exec s k r = .ok { (s.ret).1 with pc := (s.ret).2 } := by
  unfold Chip8.exec
  dsimp only
  rw [h0, hEE]
  norm_num

/-- On a primary nibble `0xD` the dispatcher executes `draw`, panicking
when the slice lookup fails. -/
theorem exec_draw (s : Chip8) (k : KeyMap) (r : ℕ)
    (h : high s.high_byte = 0xD) :
    Chip8.exec s k r =
      (match s.draw with
       | none => .panic
       | some tp => .ok { tp.1 with pc := tp.2 }) := by
  unfold Chip8.exec
  dsimp only
  rw [h]
  norm_num

/-- On an unrecognised instruction word the dispatcher reaches a
`return Err` arm, carrying the two raw bytes. -/
theorem exec_err_of_unrecognised (s : Chip8) (k : KeyMap) (r : ℕ)
    (h : unrecognised s.high_byte s.low_byte) :
    Chip8.exec s k r = .err s s.high_byte s.low_byte := by
  unfold Chip8.exec
  obtain ⟨h1, e0, e1, e2, e3, e4, e5, e6, e7, eE⟩ |
    ⟨h1, e1, e2⟩ |
    ⟨h1, e1, e2, e3, e4, e5, e6, e7, e8, e9⟩ := h
  · simp [h1, e0, e1, e2, e3, e4, e5, e6, e7, eE]
  · simp [h1, e1, e2]
  · simp [h1, e1, e2, e3, e4, e5, e6, e7, e8, e9]

/-- A `step` whose post-timer state has primary nibble 2 pushes the
current program counter and jumps: the shape of the resulting state. -/
theorem step_call (s : Chip8) (k : KeyMap) (e : ℚ) (r : ℕ)
    (hop : high s.high_byte = 0x2) :
    ∃ t, Chip8.step s k e r = .ok t ∧ t.ram = s.ram ∧ t.pc = s.addr ∧
      t.sp = s.sp + 1 ∧
      t.stack = fun j => if j = s.sp then s.pc else s.stack j := by
  refine ⟨{ (((s.epoch).run_timers e).call).1 with
             pc := (((s.epoch).run_timers e).call).2 }, ?_, ?_, ?_, ?_, ?_⟩
  · unfold Chip8.step
    exact exec_call _ k r (by rw [pre_high_byte]; exact hop)
  · show (((s.epoch).run_timers e).call).1.ram = s.ram
    unfold Chip8.call
    exact pre_ram s e
  · show (((s.epoch).run_timers e).call).2 = s.addr
    unfold Chip8.call
    exact pre_addr s e
  · show (((s.epoch).run_timers e).call).1.sp = s.sp + 1
    unfold Chip8.call
    rw [pre_sp]
  · show (((s.epoch).run_timers e).call).1.stack =
      fun j => if j = s.sp then s.pc else s.stack j
    unfold Chip8.call
    funext j
    rw [pre_sp, pre_pc, pre_stack]

/-- A `step` whose post-timer state has the `00EE` word executes `ret`:
the shape of the resulting state. -/
theorem step_ret (s : Chip8) (k : KeyMap) (e : ℚ) (r : ℕ)
    (h0 : high s.high_byte = 0x0) (hEE : s.low_byte = 0xEE) :
    ∃ u, Chip8.step s k e r = .ok u ∧
      u.pc = s.stack (s.sp - 1) + 2 ∧ u.sp = s.sp - 1 := by
  refine ⟨{ (((s.epoch).run_timers e).ret).1 with
             pc := (((s.epoch).run_timers e).ret).2 }, ?_, ?_, ?_⟩
  · unfold Chip8.step
    exact exec_ret _ k r (by rw [pre_high_byte]; exact h0)
      (by rw [pre_low_byte]; exact hEE)
  · show (((s.epoch).run_timers e).ret).2 = s.stack (s.sp - 1) + 2
    unfold Chip8.ret
    rw [pre_stack, pre_sp]
  · show (((s.epoch).run_timers e).ret).1.sp = s.sp - 1
    unfold Chip8.ret
    rw [pre_sp]

/-! ## Evaluating the timer gate at the sampled elapsed times -/

/-- At elapsed time 0 the source's decrement condition
`elapsed % CLOCK_CYCLE ≤ 0.01` holds. -/
theorem gate_zero : frem 0 CLOCK_CYCLE ≤ 1 / 100 := by
  norm_num [frem, CLOCK_CYCLE]

/-- At elapsed time 1 s (an exact multiple of the 1/60 s cycle) the
decrement condition holds. -/
theorem gate_one : frem 1 CLOCK_CYCLE ≤ 1 / 100 := by
  norm_num [frem, CLOCK_CYCLE]

/-- At elapsed time 1/200 s (5 ms, still inside the first tick
interval) the decrement condition holds. -/
theorem gate_5ms : frem (1 / 200) CLOCK_CYCLE ≤ 1 / 100 := by
  norm_num [frem, CLOCK_CYCLE]

/-- `run_timers` with an established epoch and a passing gate applies
the timer decrements. -/
theorem run_timers_apply (s : Chip8) (e : ℚ) (h : s.start_time = some ())
    (hg : frem e CLOCK_CYCLE ≤ 1 / 100) :
    s.run_timers e = { s with registers := tickTimers s.registers } := by
  unfold Chip8.run_timers
  split
  · rw [if_neg (not_not_intro hg)]
  · simp_all

/-- A `step` from a state with the epoch already established and a
passing timer gate is the dispatch on the timer-decremented state. -/
theorem step_eq_exec_tick (s : Chip8) (k : KeyMap) (e : ℚ) (r : ℕ)
    (h : s.start_time = some ()) (hg : frem e CLOCK_CYCLE ≤ 1 / 100) :
    Chip8.step s k e r =
      Chip8.exec { s with registers := tickTimers s.registers } k r := by
  unfold Chip8.step
  have hep : s.epoch = s := by
    unfold Chip8.epoch
    rw [if_neg (by rw [h]; exact fun c => Option.noConfusion c)]
  rw [hep, run_timers_apply s e h hg]

/-- A first `step` (no epoch yet) with a passing timer gate establishes
the epoch and still dispatches on the timer-decremented state. -/
theorem step_none_eq_exec_tick (s : Chip8) (k : KeyMap) (e : ℚ) (r : ℕ)
    (h : s.start_time = none) (hg : frem e CLOCK_CYCLE ≤ 1 / 100) :
    Chip8.step s k e r =
      Chip8.exec { s with start_time := some (),
                          registers := tickTimers s.registers } k r := by
  unfold Chip8.step
  have hep : s.epoch = { s with start_time := some () } := by
    unfold Chip8.epoch
    rw [if_pos h]
  rw [hep, run_timers_apply { s with start_time := some () } e rfl hg]

/-! ## Claim theorems -/

/-- Claim C1, failing evaluation: on a fully blank display (every pixel
off), drawing the one-byte all-zero sprite turns no pixel on or off,
yet `Sprite::draw` reports a collision and the draw instruction sets
register 15 to 1 — `Display::set` returns "erased" whenever the sprite
bit equals the current pixel, including for off-onto-off pixels. -/
theorem C1_collision_misreported :
    (∀ x y, Display.new.get x y = false) ∧
    (Sprite.draw [0x00] 0 0 Display.new).2 = true ∧
    (Chip8.draw stateC1).map (fun q => q.1.registers.get 15) = some 1 := by
  refine ⟨fun x y => rfl, by decide, by decide⟩

/-- Claim C2, failing evaluation: executing `Ex9E` (`SKP V0`) leaves
the program counter unchanged — the dispatcher discards the
`pc+4`/`pc+2` value that `skip_pressed` returns — both when the key in
`V0` is pressed and when it is not; likewise for `ExA1` (`SKNP V0`).
The claim demands `pc+4` or `pc+2`. -/
theorem C2_skip_key_pc_unchanged :
    stateC2.pc = 512 ∧
    stepOkPc (Chip8.step stateC2 km0 1 0) = some 512 ∧
    stepOkPc (Chip8.step stateC2 kmAll 1 0) = some 512 ∧
    stepOkPc (Chip8.step stateC2a km0 1 0) = some 512 ∧
    stepOkPc (Chip8.step stateC2a kmAll 1 0) = some 512 := by
  refine ⟨rfl, ?_, ?_, ?_, ?_⟩ <;>
    rw [step_eq_exec_tick _ _ _ _ rfl gate_one] <;> decide

/-- Claim C3, failing evaluation: with `V1 = 1` (low bit set), `8106`
(`SHR V1`) sets register 15 to 0, not 1, because `overflowing_shr(1)`
never reports an overflow for a shift amount below the bit width; with
`V1 = 0x80` (high bit set), `810E` (`SHL V1`) likewise sets register 15
to 0.  The shifted values themselves are stored correctly. -/
theorem C3_shift_flag_always_zero :
    stateC3.registers.get 1 = 1 ∧
    (Chip8.vx_shr stateC3).1.registers.get 15 = 0 ∧
    (Chip8.vx_shr stateC3).1.registers.get 1 = 0 ∧
    stateC3b.registers.get 1 = 0x80 ∧
    (Chip8.vx_shl stateC3b).1.registers.get 15 = 0 ∧
    (Chip8.vx_shl stateC3b).1.registers.get 1 = 0 := by
  refine ⟨rfl, by decide, by decide, rfl, by decide, by decide⟩

/-- Claim C4, failing evaluation: `8127` (`SUBN V1, V2`) with `V1 = 3`,
`V2 = 5`, `V7 = 0` sets register 15 to 0 and `V1` to 253: the source
reads the subtrahend register index from the LOW nibble of the low byte
(always 7 for this opcode) instead of the y nibble, so it computes
`V7 - V1` instead of `V2 - V1`.  The claim demands register 15 = 1
(since `V2 > V1`) and `V1 = 2`. -/
theorem C4_subn_wrong_operand :
    high stateC4.low_byte = 2 ∧ low stateC4.low_byte = 7 ∧
    stateC4.registers.get 1 = 3 ∧ stateC4.registers.get 2 = 5 ∧
    stateC4.registers.get 7 = 0 ∧
    (Chip8.vx_subn_vy stateC4).1.registers.get 15 = 0 ∧
    (Chip8.vx_subn_vy stateC4).1.registers.get 1 = 253 := by
  refine ⟨rfl, rfl, rfl, rfl, rfl, by decide, by decide⟩

/-- Claim C5, counterexample: `8F04` (`ADD VF, V0`) with `VF = 200`,
`V0 = 100` overflows, so the defined carry flag output is 1 — but the
source stores the wrapped sum into the destination register AFTER
writing the flag, and the destination is register 15, so register 15
ends up holding the sum 44, not the flag. -/
theorem C5_flag_clobbered_when_dest_is_vf :
    low stateC5.high_byte = 15 ∧
    256 ≤ stateC5.registers.get 15 + stateC5.registers.get 0 ∧
    (Chip8.add_vx_and_vy stateC5).1.registers.get 15 = 44 := by
  refine ⟨rfl, by decide, by decide⟩

/-- Claim C6, failing evaluation: `stateC6` has never stepped
(`start_time` is unset) and its delay timer is 5; the very first call
to `step` establishes the epoch and then, because the elapsed-time
check `0 % (1/60) ≤ 0.01` passes, already decrements the delay timer to
4 — the claim says the first call performs no decrement.  Furthermore,
from the resulting state (`stateC6c`: same machine with `pc = 514`,
the epoch established and `dt = 4`), a second call at elapsed time
1/200 s — still inside the first 1/60 s tick interval, so no tick
boundary has been crossed since the previous sample — decrements the
delay timer again, to 3. -/
theorem C6_first_step_decrements_timer :
    stateC6.start_time = none ∧ stateC6.registers.dt = 5 ∧
    stepOkDt (Chip8.step stateC6 km0 0 0) = some 4 ∧
    stepOkPc (Chip8.step stateC6 km0 0 0) = some 514 ∧
    stepOkDt (Chip8.step stateC6c km0 (1 / 200) 0) = some 3 := by
  refine ⟨rfl, rfl, ?_, ?_, ?_⟩
  · rw [step_none_eq_exec_tick _ _ _ _ rfl gate_zero]; decide
  · rw [step_none_eq_exec_tick _ _ _ _ rfl gate_zero]; decide
  · rw [step_eq_exec_tick _ _ _ _ rfl gate_5ms]; decide

/-- Claim C7, failing evaluation: loading a one-byte program in the
alternate (ETI-660) mode writes it at address 1526 and sets the program
counter to 1526 — not the claimed 0x600 = 1536, which stays untouched
(the source constant is `1526`, at odds with its own comment
`0x600 (1536)`).  The default-mode offset 0x200 = 512 is as claimed. -/
theorem C7_eti_load_offset :
    (Chip8.new.load_rom [0xAB] true).pc = 1526 ∧
    (Chip8.new.load_rom [0xAB] true).ram 1526 = 0xAB ∧
    (Chip8.new.load_rom [0xAB] true).ram 1536 = 0 ∧
    (Chip8.new.load_rom [0xAB] false).pc = 512 ∧
    (Chip8.new.load_rom [0xAB] false).ram 512 = 0xAB := by
  refine ⟨rfl, by decide, by decide, rfl, by decide⟩

/-- Claim C8, counterexample: stepping on the undefined word `FFFF`
with delay timer 1 (and a timer tick due) returns the decode failure
carrying bytes (255, 255), but the delay timer register has been
decremented to 0 by the step — so not ALL registers are left unchanged
by the failing step. -/
theorem C8_decode_failure_ticks_timer :
    stateC8.registers.dt = 1 ∧
    stepErrBytes (Chip8.step stateC8 km0 0 0) = some (0xFF, 0xFF) ∧
    stepErrDt (Chip8.step stateC8 km0 0 0) = some 0 := by
  refine ⟨rfl, ?_, ?_⟩ <;>
    rw [step_eq_exec_tick _ _ _ _ rfl gate_zero] <;> decide

/-- Claim C5, amended: every flag-defining instruction overwrites
register 15 with its flag output (0 or 1) — as long as the destination
register is not register 15 itself.  For the two shifts this holds for
every destination (the flag write comes after the result write), but
the flag output the code computes is constantly 0; for add-with-carry
and the two subtracts with destination register 15 the stored
arithmetic result overwrites the flag (see the counterexample).  For
draw, register 15 is always overwritten with the collision flag. -/
theorem C5_flag_overwrite_amended (s : Chip8) :
    (low s.high_byte ≠ 15 →
      (Chip8.add_vx_and_vy s).1.registers.get 15 =
        if 256 ≤ s.registers.get (low s.high_byte) +
            s.registers.get (high s.low_byte) then 1 else 0) ∧
    (low s.high_byte ≠ 15 →
      (Chip8.sub_vx_and_vy s).1.registers.get 15 =
        if s.registers.get (high s.low_byte) <
            s.registers.get (low s.high_byte) then 1 else 0) ∧
    (low s.high_byte ≠ 15 →
      (Chip8.vx_subn_vy s).1.registers.get 15 =
        if s.registers.get (low s.high_byte) <
            s.registers.get (low s.low_byte) then 1 else 0) ∧
    (Chip8.vx_shr s).1.registers.get 15 = 0 ∧
    (Chip8.vx_shl s).1.registers.get 15 = 0 ∧
    (∀ bytes, ramSlice s.ram s.registers.i
        ((s.registers.i + low s.low_byte) % 65536) = some bytes →
      (Chip8.draw s).map (fun q => q.1.registers.get 15) =
        some (if (Sprite.draw bytes (s.registers.get (low s.high_byte))
                  (s.registers.get (high s.low_byte)) s.display).2
              then 1 else 0)) := by
  refine ⟨?_, ?_, ?_, ?_, ?_, ?_⟩
  · intro hx
    simp [Chip8.add_vx_and_vy, overflowingAdd8, Registers.put,
      Registers.get, Ne.symm hx]
    split <;> rfl
  · intro hx
    simp [Chip8.sub_vx_and_vy, Registers.put, Registers.get, Ne.symm hx]
    split <;> rfl
  · intro hx
    simp [Chip8.vx_subn_vy, Registers.put, Registers.get, Ne.symm hx]
    split <;> rfl
  · simp [Chip8.vx_shr, overflowingShr1, Registers.put, Registers.get]
  · simp [Chip8.vx_shl, overflowingShl1, Registers.put, Registers.get]
  · intro bytes hB
    unfold Chip8.draw
    dsimp only
    rw [hB]
    simp only [Option.map_some]
    split <;> simp [Registers.put, Registers.get]

/-- Witness for the amended C5 at the concrete state `stateC5w`
(`8104`, `V1 = 200`, `V0 = 100`, `I = 100`): add and subtract-forward
report flag 1, subtract-reverse reports 0, both shifts report 0, and
the draw of the four zero bytes at `I = 100` reports collision flag
1. -/
theorem C5_flag_overwrite_amended_witness :
    (Chip8.add_vx_and_vy stateC5w).1.registers.get 15 = 1 ∧
    (Chip8.sub_vx_and_vy stateC5w).1.registers.get 15 = 1 ∧
    (Chip8.vx_subn_vy stateC5w).1.registers.get 15 = 0 ∧
    (Chip8.vx_shr stateC5w).1.registers.get 15 = 0 ∧
    (Chip8.vx_shl stateC5w).1.registers.get 15 = 0 ∧
    (Chip8.draw stateC5w).map (fun q => q.1.registers.get 15) = some 1 := by
  have h := C5_flag_overwrite_amended stateC5w
  refine ⟨?_, ?_, ?_, h.2.2.2.1, h.2.2.2.2.1, ?_⟩
  · rw [h.1 (by decide)]; decide
  · rw [h.2.1 (by decide)]; decide
  · rw [h.2.2.1 (by decide)]; decide
  · rw [h.2.2.2.2.2 [0, 0, 0, 0] (by decide)]; decide

/-- Claim C8, amended: a step on an unrecognised instruction word
returns the decode failure carrying the two raw opcode bytes and leaves
the general registers, the address register, the program counter, RAM,
the display, the stack and the stack pointer unchanged — but the delay
and sound timers may still be decremented by the per-step timer
sampling that precedes decoding. -/
theorem C8_unrecognised_amended (s : Chip8) (k : KeyMap) (e : ℚ) (r : ℕ)
    (h : unrecognised s.high_byte s.low_byte) :
    ∃ t, Chip8.step s k e r = .err t s.high_byte s.low_byte ∧
      t.pc = s.pc ∧ t.ram = s.ram ∧ t.registers.v = s.registers.v ∧
      t.registers.i = s.registers.i ∧ t.display = s.display ∧
      t.sp = s.sp ∧ t.stack = s.stack := by
  refine ⟨(s.epoch).run_timers e, ?_, ?_, ?_, ?_, ?_, ?_, ?_, ?_⟩
  · unfold Chip8.step
    have h' : unrecognised ((s.epoch).run_timers e).high_byte
        ((s.epoch).run_timers e).low_byte := by
      rw [pre_high_byte, pre_low_byte]; exact h
    rw [exec_err_of_unrecognised _ k r h', pre_high_byte, pre_low_byte]
  · exact pre_pc s e
  · exact pre_ram s e
  · rw [run_timers_registers_v, epoch_registers]
  · exact pre_registers_i s e
  · rw [run_timers_display, epoch_display]
  · exact pre_sp s e
  · exact pre_stack s e

/-- Witness for the amended C8 at the concrete state `stateC8` (word
`FFFF` at the program counter). -/
theorem C8_unrecognised_amended_witness :
    ∃ t, Chip8.step stateC8 km0 0 0 =
        .err t stateC8.high_byte stateC8.low_byte ∧
      t.pc = stateC8.pc ∧ t.ram = stateC8.ram ∧
      t.registers.v = stateC8.registers.v ∧
      t.registers.i = stateC8.registers.i ∧ t.display = stateC8.display ∧
      t.sp = stateC8.sp ∧ t.stack = stateC8.stack :=
  C8_unrecognised_amended stateC8 km0 0 0 (by unfold unrecognised; decide)

/-- Claim C9 (confirmed): when the stack depth is below 16 and the word
at the program counter is `2nnn` (`CALL`) with a `00EE` (`RET`) word at
the called address, executing the call and then the return leaves the
program counter at the instruction after the call (`pc + 2`) and
restores the stack pointer to its pre-call depth. -/
theorem C9_call_ret_round_trip (s : Chip8) (k k2 : KeyMap) (e e2 : ℚ)
    (r r2 : ℕ) (hsp : s.sp < 16) (hop : high s.high_byte = 0x2)
    (h1 : s.ram s.addr % 256 = 0x00)
    (h2 : s.ram (s.addr + 1) % 256 = 0xEE) :
    ∃ t u, Chip8.step s k e r = .ok t ∧ Chip8.step t k2 e2 r2 = .ok u ∧
      u.pc = s.pc + 2 ∧ u.sp = s.sp := by
  obtain ⟨t, hstep, tram, tpc, tsp, tstack⟩ := step_call s k e r hop
  have hb0 : high t.high_byte = 0 := by
    unfold Chip8.high_byte
    rw [tram, tpc, h1]
    decide
  have hbE : t.low_byte = 0xEE := by
    unfold Chip8.low_byte
    rw [tram, tpc, h2]
  obtain ⟨u, hstep2, upc, usp⟩ := step_ret t k2 e2 r2 hb0 hbE
  refine ⟨t, u, hstep, hstep2, ?_, ?_⟩
  · rw [upc, tstack, tsp]
    simp
  · rw [usp, tsp]
    omega

/-- Witness for C9 at the concrete state `stateC9` (`CALL 0x600` at
512, `RET` at 0x600, empty stack). -/
theorem C9_call_ret_round_trip_witness :
    stateC9.sp = 0 ∧ stateC9.pc = 512 ∧
    ∃ t u, Chip8.step stateC9 km0 0 0 = .ok t ∧
      Chip8.step t km0 0 0 = .ok u ∧
      u.pc = stateC9.pc + 2 ∧ u.sp = stateC9.sp :=
  ⟨rfl, rfl, C9_call_ret_round_trip stateC9 km0 km0 0 0 0 0 (by decide)
    (by decide) (by decide) (by decide)⟩

/-- The slice lookup of the draw instruction fails exactly when
`I + n` exceeds the 4096-byte RAM (given the `u16` wrap of the end
index and a nibble-sized `n`). -/
theorem ramSlice_none_iff (ram : ℕ → ℕ) (i n : ℕ) (hn : n < 16) :
    ramSlice ram i ((i + n) % 65536) = none ↔ 4096 < i + n := by
  unfold ramSlice
  split
  · rename_i hc
    obtain ⟨hc1, hc2⟩ := hc
    constructor
    · intro hcon
      exact absurd hcon (Option.some_ne_none _)
    · intro h4
      exfalso
      omega
  · rename_i hc
    constructor
    · intro _
      by_contra hle
      push_neg at hle
      exact hc ⟨by omega, by omega⟩
    · intro _
      rfl

/-- Claim C10 (confirmed): a draw step panics (the slice `expect`)
exactly when `I + n` exceeds 4096; when `I + n ≤ 4096` the slice lookup
succeeds and the step completes normally — in neither case is a decode
error returned. -/
theorem C10_draw_panic_boundary (s : Chip8) (k : KeyMap) (e : ℚ) (r : ℕ)
    (hD : high s.high_byte = 0xD) :
    (4096 < s.registers.i + low s.low_byte →
      Chip8.step s k e r = .panic) ∧
    (s.registers.i + low s.low_byte ≤ 4096 →
      ∃ t, Chip8.step s k e r = .ok t) := by
  have hstep : Chip8.step s k e r =
      (match ((s.epoch).run_timers e).draw with
       | none => .panic
       | some tp => .ok { tp.1 with pc := tp.2 }) := by
    unfold Chip8.step
    exact exec_draw _ k r (by rw [pre_high_byte]; exact hD)
  have hi := pre_registers_i s e
  have hlb : low ((s.epoch).run_timers e).low_byte = low s.low_byte := by
    rw [pre_low_byte]
  have hn : low s.low_byte < 16 := Nat.mod_lt _ (by norm_num)
  constructor
  · intro hover
    have hnone : ((s.epoch).run_timers e).draw = none := by
      unfold Chip8.draw
      dsimp only
      rw [hi, hlb]
      rw [(ramSlice_none_iff ((s.epoch).run_timers e).ram s.registers.i
        (low s.low_byte) hn).2 hover]
    rw [hstep, hnone]
  · intro hle
    rcases hdraw : ((s.epoch).run_timers e).draw with _ | tp
    · exfalso
      unfold Chip8.draw at hdraw
      dsimp only at hdraw
      rw [hi, hlb] at hdraw
      rcases hslice : ramSlice ((s.epoch).run_timers e).ram s.registers.i
          ((s.registers.i + low s.low_byte) % 65536) with _ | bytes
      · have := (ramSlice_none_iff ((s.epoch).run_timers e).ram
          s.registers.i (low s.low_byte) hn).1 hslice
        omega
      · rw [hslice] at hdraw
        simp at hdraw
    · refine ⟨{ tp.1 with pc := tp.2 }, ?_⟩
      rw [hstep, hdraw]

/-- Witness for C10: with `D005` and `I = 4095` (so `I + 5 = 4100`)
the step panics; with `I = 4091` (so `I + 5 = 4096`) it completes. -/
theorem C10_draw_panic_boundary_witness :
    Chip8.step stateC10 km0 0 0 = .panic ∧
    ∃ t, Chip8.step stateC10b km0 0 0 = .ok t :=
  ⟨(C10_draw_panic_boundary stateC10 km0 0 0 (by decide)).1 (by decide),
   (C10_draw_panic_boundary stateC10b km0 0 0 (by decide)).2 (by decide)⟩
